import Mathlib

/-!
Shallow embedding of the expense-tracker backend.

The source is an Express + Mongoose HTTP API (src/backend/index.js is the
expense router; src/unnamed/part_000 holds the Mongoose schemas).  Handlers
are embedded as pure functions from the authenticated caller's id, the
validated-or-raw request data and the current database state to an HTTP-level
result (status code, message, payload, new database state).

Modelling conventions:
  - MongoDB ObjectIds are `Nat`; `Db.nextId` models the fresh-id generator
    (`create` / `insertMany` assign ids never used before, captured by the
    freshness hypothesis `∀ e ∈ db.expenses, e.id < db.nextId` where needed).
  - JS numbers carrying money amounts are `ℚ`; dates are `Int` timestamps
    (`z.coerce.date()` succeeds on every value of this type, matching the
    handlers which only ever compare dates).
  - zod `safeParse` is embedded per schema as a function returning either the
    parsed value or the list of offending field names (zod reports every
    failing field, not only the first).
  - A request body may carry fields the schema does not mention (zod object
    schemas accept and strip unknown keys); such fields are kept in the raw
    body records so that theorems can quantify over them.
-/

namespace ExpenseTracker

/-- The `type` field of an expense: `z.enum(['income', 'expense'])` in the
zod schemas and the same `enum` in the Mongoose `ExpenseSchema`. -/
inductive ExpenseType where
  | income
  | expense
deriving DecidableEq

/-- A stored `expense` document, after the Mongoose `ExpenseSchema`:
title, description, amount, date, type, userId, plus the `_id` Mongo adds. -/
structure Expense where
  id : Nat
  title : String
  description : String
  amount : ℚ
  date : Int
  type : ExpenseType
  userId : Nat
deriving DecidableEq

/-- The expense collection plus the fresh-id source for newly created
documents. -/
structure Db where
  expenses : List Expense
  nextId : Nat
deriving DecidableEq

/-- Raw JSON body of `POST /expense/add` (and of each element of the
`expenses` array of `POST /expense/add/bulk`): the five schema fields, with
`type` still a string, plus an optional client-supplied `userId` field that
the zod schema does not mention (zod accepts and strips unknown keys, and
the handler never reads it). -/
structure RawExpenseBody where
  title : String
  description : String
  amount : ℚ
  date : Int
  type : String
  userId : Option Nat
deriving DecidableEq

/-- Interpretation of the `type` string by `z.enum(['income', 'expense'])`. -/
def parseType : String → Option ExpenseType
  | "income" => some ExpenseType.income
  | "expense" => some ExpenseType.expense
  | _ => none

/-- Field names rejected by the `requireBody` zod schema of
`POST /expense/add`: `title: z.string().min(1)`,
`description: z.string().min(1)`, `amount: z.number().positive()`,
`date: z.coerce.date()` (always succeeds on our date model),
`type: z.enum(['income', 'expense'])`. -/
def bodyErrors (b : RawExpenseBody) : List String :=
  (if 1 ≤ b.title.length then [] else ["title"])
    ++ (if 1 ≤ b.description.length then [] else ["description"])
    ++ (if 0 < b.amount then [] else ["amount"])
    ++ (if (parseType b.type).isSome then [] else ["type"])

/-- A body that passed the create-expense schema. -/
structure ValidBody where
  title : String
  description : String
  amount : ℚ
  date : Int
  type : ExpenseType
deriving DecidableEq

/-- The `requireBody.safeParse` call of `POST /expense/add`: success exactly
when every field check passes, otherwise the list of failing fields. -/
def parseBody (b : RawExpenseBody) : Except (List String) ValidBody :=
  match parseType b.type with
  | some t =>
      if 1 ≤ b.title.length ∧ 1 ≤ b.description.length ∧ 0 < b.amount then
        Except.ok ⟨b.title, b.description, b.amount, b.date, t⟩
      else Except.error (bodyErrors b)
  | none => Except.error (bodyErrors b)

/-- The document built by `expenseModel.create(\x7b title, ..., userId: req.user._id \x7d)`:
the validated body fields plus the caller's id, under a fresh `_id`. -/
def mkExpense (nid uid : Nat) (v : ValidBody) : Expense :=
  ⟨nid, v.title, v.description, v.amount, v.date, v.type, uid⟩

/-- Result of `POST /expense/add`: HTTP status, zod error detail (empty on
success), the resulting database and the created document, if any. -/
structure AddResult where
  status : Nat
  errors : List String
  db : Db
  created : Option Expense
deriving DecidableEq

/-- Handler of `POST /expense/add` (index.js lines 58-94): validate the body;
on failure answer 400 with the error detail, touching no data; on success
insert the document with `userId` forced to the caller and answer 201. -/
def postAdd (db : Db) (caller : Nat) (b : RawExpenseBody) : AddResult :=
  match parseBody b with
  | Except.error errs => ⟨400, errs, db, none⟩
  | Except.ok v =>
      let e := mkExpense db.nextId caller v
      ⟨201, [], ⟨db.expenses ++ [e], db.nextId + 1⟩, some e⟩

/-- Error detail of the `POST /expense/add/bulk` schema:
`expenses: z.array(elementSchema).min(1).max(100)`; zod reports the array
bound violation and every failing field of every element. -/
def bulkErrors (bs : List RawExpenseBody) : List String :=
  (if 1 ≤ bs.length ∧ bs.length ≤ 100 then [] else ["expenses"])
    ++ (bs.map bodyErrors).flatten

/-- Element-wise parse of the `expenses` array: all elements must pass. -/
def parseAllBodies : List RawExpenseBody → Option (List ValidBody)
  | [] => some []
  | b :: rest =>
      match parseBody b with
      | Except.ok v => (parseAllBodies rest).map (v :: ·)
      | Except.error _ => none

/-- The `expenseModel.insertMany(expensesWithUserId)` call: each element is
stored with `userId` forced to the caller, each under a fresh id. -/
def insertMany (db : Db) (caller : Nat) : List ValidBody → Db × List Expense
  | [] => (db, [])
  | v :: rest =>
      let e := mkExpense db.nextId caller v
      let r := insertMany ⟨db.expenses ++ [e], db.nextId + 1⟩ caller rest
      (r.1, e :: r.2)

/-- Result of `POST /expense/add/bulk`. -/
structure BulkAddResult where
  status : Nat
  errors : List String
  db : Db
  created : List Expense
deriving DecidableEq

/-- Handler of `POST /expense/add/bulk` (index.js lines 97-133): validate the
array (bounds 1..100 and every element); on failure answer 400 touching no
data; on success spread each element, overwrite `userId` with the caller's id
and insert them all. -/
def postAddBulk (db : Db) (caller : Nat) (bs : List RawExpenseBody) : BulkAddResult :=
  if 1 ≤ bs.length ∧ bs.length ≤ 100 then
    match parseAllBodies bs with
    | some vs =>
        let r := insertMany db caller vs
        ⟨201, [], r.1, r.2⟩
    | none => ⟨400, bulkErrors bs, db, []⟩
  else ⟨400, bulkErrors bs, db, []⟩

/-- The owner filter used by every by-id read/update/delete:
`findOne(\x7b _id: req.params.id, userId: req.user._id \x7d)` — a document counts
only when both the id and the owner match; `findOne` returns the first such
document or null. -/
def ownedBy (id uid : Nat) (e : Expense) : Bool :=
  decide (e.id = id ∧ e.userId = uid)

/-- The `findOne(\x7b _id, userId \x7d)` lookup. -/
def findOwned (l : List Expense) (id uid : Nat) : Option Expense :=
  l.find? (ownedBy id uid)

/-- Result of `GET /expense/:id`. -/
structure GetResult where
  status : Nat
  message : Option String
  expense : Option Expense
deriving DecidableEq

/-- Handler of `GET /expense/:id` (index.js lines 288-303): look the document
up under the owner filter; 404 `"Expense not found"` when nothing matches,
otherwise 200 with the document. -/
def getById (db : Db) (caller id : Nat) : GetResult :=
  match findOwned db.expenses id caller with
  | some e => ⟨200, none, some e⟩
  | none => ⟨404, some "Expense not found", none⟩

/-- Raw JSON body of `PUT /expense/:id`.  The zod schema makes the five
expense fields optional; `userId` is NOT part of the zod schema (an unknown
key, accepted and ignored by validation) but IS a path of the Mongoose
`ExpenseSchema`, so it matters because the handler passes `req.body` — not
`parsedata.data` — to `findOneAndUpdate` (index.js line 327).  A `type`
value, when present, already passed `z.enum(['income', 'expense'])`. -/
structure UpdateBody where
  title : Option String
  description : Option String
  amount : Option ℚ
  date : Option Int
  type : Option ExpenseType
  userId : Option Nat
deriving DecidableEq

/-- Field names rejected by the `PUT /expense/:id` zod schema: each field is
optional, but when present must satisfy the same constraint as on create. -/
def updateErrors (b : UpdateBody) : List String :=
  (match b.title with
    | some t => if 1 ≤ t.length then [] else ["title"]
    | none => [])
    ++ (match b.description with
      | some d => if 1 ≤ d.length then [] else ["description"]
      | none => [])
    ++ (match b.amount with
      | some a => if 0 < a then [] else ["amount"]
      | none => [])

/-- Mongoose `findOneAndUpdate(filter, req.body)` semantics on the matched
document: a plain update object is applied as a `$set` of its fields; keys
outside the Mongoose schema are dropped (strict mode), so exactly the six
schema paths — `userId` included — can be written. -/
def applyUpdate (e : Expense) (b : UpdateBody) : Expense :=
  { id := e.id
    title := b.title.getD e.title
    description := b.description.getD e.description
    amount := b.amount.getD e.amount
    date := b.date.getD e.date
    type := b.type.getD e.type
    userId := b.userId.getD e.userId }

/-- `findOneAndUpdate` updates only the first document matching the filter. -/
def updateFirst (l : List Expense) (id uid : Nat) (b : UpdateBody) : List Expense :=
  match l with
  | [] => []
  | e :: rest =>
      if ownedBy id uid e then applyUpdate e b :: rest
      else e :: updateFirst rest id uid b

/-- Result of `PUT /expense/:id`. -/
structure PutResult where
  status : Nat
  message : Option String
  errors : List String
  expense : Option Expense
  db : Db
deriving DecidableEq

/-- Handler of `PUT /expense/:id` (index.js lines 306-339): validate the
partial body with the all-optional zod schema (400 with detail on failure);
then `findOneAndUpdate(\x7b _id, userId \x7d, req.body, \x7b new: true \x7d)`: 404
`"Expense not found"` when no owned document matches, otherwise 200 with the
updated document.  Note the handler passes the RAW `req.body` to Mongoose. -/
def putById (db : Db) (caller id : Nat) (b : UpdateBody) : PutResult :=
  if updateErrors b = [] then
    match findOwned db.expenses id caller with
    | some e =>
        ⟨200, some "Expense updated successfully", [], some (applyUpdate e b),
          ⟨updateFirst db.expenses id caller b, db.nextId⟩⟩
    | none => ⟨404, some "Expense not found", [], none, db⟩
  else ⟨400, some "Invalid data", updateErrors b, none, db⟩

/-- `findOneAndDelete` removes only the first document matching the filter. -/
def removeFirst (l : List Expense) (id uid : Nat) : List Expense :=
  match l with
  | [] => []
  | e :: rest => if ownedBy id uid e then rest else e :: removeFirst rest id uid

/-- Result of `DELETE /expense/:id`. -/
structure DeleteResult where
  status : Nat
  message : Option String
  db : Db
deriving DecidableEq

/-- Handler of `DELETE /expense/:id` (index.js lines 342-357):
`findOneAndDelete(\x7b _id, userId \x7d)`; 404 `"Expense not found"` when no owned
document matches, otherwise 200. -/
def deleteById (db : Db) (caller id : Nat) : DeleteResult :=
  match findOwned db.expenses id caller with
  | some _ => ⟨200, some "Expense deleted successfully", ⟨removeFirst db.expenses id caller, db.nextId⟩⟩
  | none => ⟨404, some "Expense not found", db⟩

/-- Result of `DELETE /expense/bulk`. -/
structure BulkDeleteResult where
  status : Nat
  errors : List String
  deletedCount : Nat
  db : Db
deriving DecidableEq

/-- Predicate of the `deleteMany(\x7b _id: \x7b $in: expenseIds \x7d, userId \x7d)` call:
a document is deleted exactly when its id is in the list AND the caller owns
it. -/
def bulkDeleteHit (ids : List Nat) (uid : Nat) (e : Expense) : Bool :=
  decide (e.id ∈ ids ∧ e.userId = uid)

/-- Handler of `DELETE /expense/bulk` (index.js lines 256-285): validate
`expenseIds: z.array(z.string()).min(1).max(100)` (400 on failure); then
`deleteMany` over the id-and-owner filter, answering 200 with the number of
documents removed. -/
def deleteBulk (db : Db) (caller : Nat) (ids : List Nat) : BulkDeleteResult :=
  if 1 ≤ ids.length ∧ ids.length ≤ 100 then
    ⟨200, [], (db.expenses.filter (bulkDeleteHit ids caller)).length,
      ⟨db.expenses.filter (fun e => !bulkDeleteHit ids caller e), db.nextId⟩⟩
  else ⟨400, ["expenseIds"], 0, db⟩

/-- Result of `POST /expense/duplicate/:id`. -/
structure DupResult where
  status : Nat
  message : Option String
  expense : Option Expense
  db : Db
deriving DecidableEq

/-- Handler of `POST /expense/duplicate/:id` (index.js lines 226-253): fetch
the source under the owner filter; 404 `"Expense not found"` when nothing
matches; otherwise create a document with the original's title plus
`" (Copy)"`, the original's description, amount and type, `date: new Date()`
(the `now` argument) and `userId: req.user._id`, and answer 201 with it. -/
def duplicateById (db : Db) (caller id : Nat) (now : Int) : DupResult :=
  match findOwned db.expenses id caller with
  | none => ⟨404, some "Expense not found", none, db⟩
  | some e =>
      let d : Expense :=
        ⟨db.nextId, e.title ++ " (Copy)", e.description, e.amount, now, e.type, caller⟩
      ⟨201, some "Expense duplicated successfully", some d,
        ⟨db.expenses ++ [d], db.nextId + 1⟩⟩

/-- Descending-amount comparison used by `.sort(\x7b amount: -1 \x7d)`. -/
def amtGe (a b : Expense) : Prop :=
  b.amount ≤ a.amount

instance : DecidableRel amtGe := fun a b => inferInstanceAs (Decidable (b.amount ≤ a.amount))

instance : IsTotal Expense amtGe := ⟨fun a b => le_total b.amount a.amount⟩

instance : IsTrans Expense amtGe := ⟨fun _ _ _ h h' => le_trans h' h⟩

/-- The `find(filter).sort(\x7b amount: -1 \x7d)` result list, sorted by amount in
descending order.  MongoDB guarantees the ordering by amount only (ties are
unspecified); the embedding fixes one such ordering. -/
def sortByAmountDesc (l : List Expense) : List Expense :=
  List.insertionSort amtGe l

/-- Result of `GET /expense/top`. -/
structure TopResult where
  status : Nat
  errors : List String
  expenses : List Expense
deriving DecidableEq

/-- The documents considered by `GET /expense/top`: the caller's expenses,
filtered by type when the query carries one (`if (type) filter.type = type`). -/
def topMatches (db : Db) (uid : Nat) (t? : Option ExpenseType) : List Expense :=
  db.expenses.filter fun e =>
    decide (e.userId = uid) &&
      (match t? with
        | some t => decide (e.type = t)
        | none => true)

/-- Handler of `GET /expense/top` (index.js lines 183-212).  The zod query
schema is `limit: z.coerce.number().positive().max(50).default(10)` — the
default applies when the parameter is absent, and a present value is
accepted exactly when it is positive and at most 50 (the schema does NOT
require an integer) — and an optional `type` enum.  On success the caller's
(type-filtered) expenses are sorted by amount descending and cut to `limit`
documents; MongoDB applies the cursor limit at the integral part of the
number, exercised in the theorems only at integral values. -/
def getTop (db : Db) (caller : Nat) (limit? : Option ℚ) (t? : Option ExpenseType) : TopResult :=
  let lim : ℚ := limit?.getD 10
  if 0 < lim ∧ lim ≤ 50 then
    ⟨200, [], (sortByAmountDesc (topMatches db caller t?)).take ⌊lim⌋.toNat⟩
  else ⟨400, ["limit"], []⟩

/-- The date-range part of the statistics filter: `filter.date.$gte` /
`filter.date.$lte` are set only for the bounds present in the query. -/
def inRange (s? e? : Option Int) (d : Int) : Bool :=
  (match s? with | some s => decide (s ≤ d) | none => true)
    && (match e? with | some e => decide (d ≤ e) | none => true)

/-- The `$match` stage of `GET /expense/stats/summary`: the caller's
expenses, restricted to the optional date range. -/
def summaryMatches (db : Db) (uid : Nat) (s? e? : Option Int) : List Expense :=
  db.expenses.filter fun x => decide (x.userId = uid) && inRange s? e? x.date

/-- One group of the `$group: \x7b _id: '$type', total: \x7b $sum \x7d, count, average \x7d`
stage. -/
structure Breakdown where
  type : ExpenseType
  total : ℚ
  count : Nat
  average : ℚ
deriving DecidableEq

/-- The group the aggregation produces for one type value: present exactly
when some matched document has that type. -/
def groupFor (l : List Expense) (t : ExpenseType) : List Breakdown :=
  let xs := l.filter fun x => decide (x.type = t)
  if xs.length = 0 then []
  else [⟨t, (xs.map Expense.amount).sum, xs.length,
    (xs.map Expense.amount).sum / (xs.length : ℚ)⟩]

/-- The full `$group` output: at most one group per type value.  MongoDB
leaves the group order unspecified; the embedding fixes income-then-expense
(no handler nor claim depends on the order). -/
def groupSummary (l : List Expense) : List Breakdown :=
  groupFor l ExpenseType.income ++ groupFor l ExpenseType.expense

/-- Result of `GET /expense/stats/summary`. -/
structure SummaryResult where
  status : Nat
  totalIncome : ℚ
  totalExpenses : ℚ
  balance : ℚ
  breakdown : List Breakdown
deriving DecidableEq

/-- Handler of `GET /expense/stats/summary` (index.js lines 360-413):
aggregate the caller's (date-filtered) expenses grouped by type, then
`totalIncome = summary.find(s => s._id === 'income')?.total || 0` (same for
`expense`) and `balance = totalIncome - totalExpenses`; answer 200. -/
def statsSummary (db : Db) (caller : Nat) (s? e? : Option Int) : SummaryResult :=
  let summary := groupSummary (summaryMatches db caller s? e?)
  let ti := ((summary.find? fun b => decide (b.type = ExpenseType.income)).map Breakdown.total).getD 0
  let te := ((summary.find? fun b => decide (b.type = ExpenseType.expense)).map Breakdown.total).getD 0
  ⟨200, ti, te, ti - te, summary⟩

/-! Helper lemmas. -/

/-- Every expense stored by `insertMany` either was already stored or carries
the caller's id, and every document it reports created carries it. -/
theorem insertMany_userId (caller : Nat) (vs : List ValidBody) (db : Db) :
    (∀ e ∈ (insertMany db caller vs).1.expenses, e ∈ db.expenses ∨ e.userId = caller) ∧
      (∀ e ∈ (insertMany db caller vs).2, e.userId = caller) := by
  induction vs generalizing db with
  | nil => exact ⟨fun e he => Or.inl he, by simp [insertMany]⟩
  | cons v rest ih =>
      obtain ⟨ih1, ih2⟩ := ih ⟨db.expenses ++ [mkExpense db.nextId caller v], db.nextId + 1⟩
      refine ⟨fun e he => ?_, fun e he => ?_⟩
      · rcases ih1 e he with h | h
        · rcases List.mem_append.mp h with h | h
          · exact Or.inl h
          · simp only [List.mem_singleton] at h
            exact Or.inr (by rw [h]; rfl)
        · exact Or.inr h
      · simp only [insertMany, List.mem_cons] at he
        rcases he with h | h
        · rw [h]; rfl
        · exact ih2 e h

/-- A create body whose amount is nonpositive or whose type string is not in
the enum fails the zod parse. -/
theorem parseBody_error_of_bad (b : RawExpenseBody)
    (hb : b.amount ≤ 0 ∨ parseType b.type = none) :
    parseBody b = Except.error (bodyErrors b) := by
  rcases hb with hb | hb
  · have hno : ¬(1 ≤ b.title.length ∧ 1 ≤ b.description.length ∧ 0 < b.amount) :=
      fun h => absurd h.2.2 (not_lt.mpr hb)
    unfold parseBody
    cases parseType b.type with
    | none => rfl
    | some t => simp [hno]
  · unfold parseBody
    rw [hb]

/-- A create body whose amount is nonpositive or whose type string is not in
the enum produces a nonempty zod error detail. -/
theorem bodyErrors_ne_nil_of_bad (b : RawExpenseBody)
    (hb : b.amount ≤ 0 ∨ parseType b.type = none) :
    bodyErrors b ≠ [] := by
  rcases hb with hb | hb
  · have hno : ¬(0 < b.amount) := not_lt.mpr hb
    simp [bodyErrors, hno]
  · simp [bodyErrors, hb]

/-- If any element of the bulk array fails its parse, the whole array parse
fails. -/
theorem parseAllBodies_none_of_mem (bs : List RawExpenseBody) (x : RawExpenseBody)
    (hx : x ∈ bs) (hfail : parseBody x = Except.error (bodyErrors x)) :
    parseAllBodies bs = none := by
  induction bs with
  | nil => cases hx
  | cons b rest ih =>
      rcases List.mem_cons.mp hx with h | h
      · subst h
        simp [parseAllBodies, hfail]
      · unfold parseAllBodies
        cases parseBody b with
        | error _ => rfl
        | ok v => simp [ih h]

/-- If any element of the bulk array has a nonempty error detail, the bulk
error detail is nonempty. -/
theorem bulkErrors_ne_nil_of_mem (bs : List RawExpenseBody) (x : RawExpenseBody)
    (hx : x ∈ bs) (hne : bodyErrors x ≠ []) :
    bulkErrors bs ≠ [] := by
  intro h
  simp only [bulkErrors, List.append_eq_nil] at h
  obtain ⟨-, hflat⟩ := h
  obtain ⟨a, ha⟩ := List.exists_mem_of_ne_nil _ hne
  have : a ∈ (bs.map bodyErrors).flatten :=
    List.mem_flatten.mpr ⟨bodyErrors x, List.mem_map_of_mem bodyErrors hx, ha⟩
  rw [hflat] at this
  cases this

/-! Claim theorems: expense creation. -/

/-- C1.  For every valid expense creation payload (single create and bulk
create), the stored record's `userId` field equals the authenticated
caller's id, regardless of any client-supplied `userId` value in the
request body. -/
theorem create_userId_eq_caller (db : Db) (caller : Nat) (b : RawExpenseBody)
    (bs : List RawExpenseBody) :
    (∀ e ∈ (postAdd db caller b).db.expenses, e ∈ db.expenses ∨ e.userId = caller) ∧
      (∀ e, (postAdd db caller b).created = some e → e.userId = caller) ∧
      (∀ e ∈ (postAddBulk db caller bs).db.expenses, e ∈ db.expenses ∨ e.userId = caller) ∧
      (∀ e ∈ (postAddBulk db caller bs).created, e.userId = caller) := by
  refine ⟨?_, ?_, ?_, ?_⟩
  · intro e he
    unfold postAdd at he
    cases hp : parseBody b with
    | error errs => rw [hp] at he; exact Or.inl he
    | ok v =>
        rw [hp] at he
        simp only at he
        rcases List.mem_append.mp he with h | h
        · exact Or.inl h
        · simp only [List.mem_singleton] at h
          exact Or.inr (by rw [h]; rfl)
  · intro e he
    unfold postAdd at he
    cases hp : parseBody b with
    | error errs => rw [hp] at he; cases he
    | ok v =>
        rw [hp] at he
        simp only [Option.some.injEq] at he
        rw [← he]; rfl
  · intro e he
    unfold postAddBulk at he
    by_cases hlen : 1 ≤ bs.length ∧ bs.length ≤ 100
    · rw [if_pos hlen] at he
      cases hp : parseAllBodies bs with
      | none => rw [hp] at he; exact Or.inl he
      | some vs =>
          rw [hp] at he
          exact (insertMany_userId caller vs db).1 e he
    · rw [if_neg hlen] at he
      exact Or.inl he
  · intro e he
    unfold postAddBulk at he
    by_cases hlen : 1 ≤ bs.length ∧ bs.length ≤ 100
    · rw [if_pos hlen] at he
      cases hp : parseAllBodies bs with
      | none => rw [hp] at he; cases he
      | some vs =>
          rw [hp] at he
          exact (insertMany_userId caller vs db).2 e he
    · rw [if_neg hlen] at he
      cases he

/-- Sample database and bodies for the concrete witnesses. -/
def sampleDb : Db :=
  ⟨[⟨7, "Rent", "monthly rent", 1000, 5, ExpenseType.income, 1⟩], 8⟩

/-- A valid create body that also smuggles a client-chosen `userId`. -/
def smuggleBody : RawExpenseBody :=
  ⟨"Lunch", "food", 12, 6, "expense", some 999⟩

/-- Witness for C1: user 1 creates `smuggleBody` (which carries
`userId: 999`); the record reported created has `userId = 1`. -/
theorem create_userId_eq_caller_witness :
    ((postAdd sampleDb 1 smuggleBody).created.getD
        ⟨0, "none", "none", 1, 0, ExpenseType.expense, 0⟩).userId = 1 := by
  have h := (create_userId_eq_caller sampleDb 1 smuggleBody []).2.1
  have hc : (postAdd sampleDb 1 smuggleBody).created =
      some ⟨8, "Lunch", "food", 12, 6, ExpenseType.expense, 1⟩ := by decide
  rw [hc]
  exact h _ hc

/-- C4.  For every expense creation request whose payload has amount ≤ 0 or
a type value outside the enum, the handler (single and bulk) returns 400
with nonempty structured error detail and the store is unchanged. -/
theorem invalid_create_rejected_400 (db : Db) (caller : Nat) (b x : RawExpenseBody)
    (bs : List RawExpenseBody)
    (hb : b.amount ≤ 0 ∨ parseType b.type = none)
    (hx : x ∈ bs) (hxb : x.amount ≤ 0 ∨ parseType x.type = none) :
    ((postAdd db caller b).status = 400 ∧ (postAdd db caller b).db = db ∧
        (postAdd db caller b).errors ≠ []) ∧
      ((postAddBulk db caller bs).status = 400 ∧ (postAddBulk db caller bs).db = db ∧
        (postAddBulk db caller bs).errors ≠ []) := by
  constructor
  · rw [postAdd, parseBody_error_of_bad b hb]
    exact ⟨rfl, rfl, bodyErrors_ne_nil_of_bad b hb⟩
  · have hfail := parseBody_error_of_bad x hxb
    have hne := bulkErrors_ne_nil_of_mem bs x hx (bodyErrors_ne_nil_of_bad x hxb)
    unfold postAddBulk
    by_cases hlen : 1 ≤ bs.length ∧ bs.length ≤ 100
    · rw [if_pos hlen, parseAllBodies_none_of_mem bs x hx hfail]
      exact ⟨rfl, rfl, hne⟩
    · rw [if_neg hlen]
      exact ⟨rfl, rfl, hne⟩

/-- A create body with a nonpositive amount. -/
def badAmountBody : RawExpenseBody :=
  ⟨"Lunch", "food", -5, 6, "expense", none⟩

/-- Witness for C4: a body with amount −5 is rejected by both create
endpoints and the store`sampleDb` is untouched. -/
theorem invalid_create_rejected_400_witness :
    ((-5 : ℚ) ≤ 0) ∧
      (postAdd sampleDb 1 badAmountBody).status = 400 ∧
      (postAdd sampleDb 1 badAmountBody).db = sampleDb ∧
      (postAddBulk sampleDb 1 [badAmountBody]).status = 400 ∧
      (postAddBulk sampleDb 1 [badAmountBody]).db = sampleDb := by
  have h := invalid_create_rejected_400 sampleDb 1 badAmountBody badAmountBody [badAmountBody]
    (Or.inl (by decide)) (by decide) (Or.inl (by decide))
  exact ⟨by decide, h.1.1, h.1.2.1, h.2.1, h.2.2.1⟩

/-! Claim theorems: by-id operations. -/

/-- C2.  For every expense id with no matching owned document — the id is
absent from the store OR the document belongs to another user, both cases
being exactly `findOwned ... = none` — get-by-id, update-by-id (with a body
that passes validation) and delete-by-id each answer 404 with the body
`\x7b message: "Expense not found" \x7d` and leave the store untouched; the
response is a constant, so the two cases are indistinguishable to the
caller. -/
theorem get_update_delete_uniform_404 (db : Db) (caller id : Nat) (ub : UpdateBody)
    (habs : findOwned db.expenses id caller = none)
    (hub : updateErrors ub = []) :
    getById db caller id = ⟨404, some "Expense not found", none⟩ ∧
      putById db caller id ub = ⟨404, some "Expense not found", [], none, db⟩ ∧
      deleteById db caller id = ⟨404, some "Expense not found", db⟩ := by
  refine ⟨?_, ?_, ?_⟩
  · rw [getById, habs]
  · rw [putById, if_pos hub, habs]
  · rw [deleteById, habs]

/-- Database for the C2 witness: one expense, id 7, owned by user 2. -/
def otherOwnerDb : Db :=
  ⟨[⟨7, "Rent", "monthly rent", 1000, 5, ExpenseType.income, 2⟩], 8⟩

/-- An update body renaming the expense, valid under the zod schema. -/
def renameBody : UpdateBody :=
  ⟨some "Flat", none, none, none, none, none⟩

/-- Witness for C2: caller 1 addresses id 99 (absent) and id 7 (stored but
owned by user 2); all three handlers answer the same 404 response in both
cases. -/
theorem get_update_delete_uniform_404_witness :
    getById otherOwnerDb 1 99 = ⟨404, some "Expense not found", none⟩ ∧
      getById otherOwnerDb 1 7 = ⟨404, some "Expense not found", none⟩ ∧
      putById otherOwnerDb 1 99 renameBody = ⟨404, some "Expense not found", [], none, otherOwnerDb⟩ ∧
      putById otherOwnerDb 1 7 renameBody = ⟨404, some "Expense not found", [], none, otherOwnerDb⟩ ∧
      deleteById otherOwnerDb 1 99 = ⟨404, some "Expense not found", otherOwnerDb⟩ ∧
      deleteById otherOwnerDb 1 7 = ⟨404, some "Expense not found", otherOwnerDb⟩ := by
  have h99 := get_update_delete_uniform_404 otherOwnerDb 1 99 renameBody (by decide) (by decide)
  have h7 := get_update_delete_uniform_404 otherOwnerDb 1 7 renameBody (by decide) (by decide)
  exact ⟨h99.1, h7.1, h99.2.1, h7.2.1, h99.2.2, h7.2.2⟩

/-- Database for the C3 evaluation: one expense, id 7, owned by user 1. -/
def ownDb : Db :=
  ⟨[⟨7, "Lunch", "food", 12, 0, ExpenseType.expense, 1⟩], 8⟩

/-- An update body that passes the zod schema (which ignores unknown keys)
while carrying a client-chosen `userId`. -/
def hijackBody : UpdateBody :=
  ⟨none, none, none, none, none, some 2⟩

/-- C3 evaluation.  User 1 updates their own expense 7 with the body
`\x7b userId: 2 \x7d`: the zod schema accepts it (unknown key), and because the
handler passes the raw `req.body` to `findOneAndUpdate` — `userId` being a
Mongoose schema path — the persisted and returned record now carries
`userId = 2`: an unvalidated request-body field reached the persisted
record and transferred ownership. -/
theorem put_persists_client_userId :
    updateErrors hijackBody = [] ∧
      (putById ownDb 1 7 hijackBody).status = 200 ∧
      ((putById ownDb 1 7 hijackBody).db.expenses.map Expense.userId) = [2] ∧
      ((putById ownDb 1 7 hijackBody).expense.map Expense.userId) = some 2 := by
  decide

/-- The empty partial update: a request body with no field supplied. -/
def emptyUpdate : UpdateBody :=
  ⟨none, none, none, none, none, none⟩

/-- Applying the empty partial update changes nothing. -/
theorem applyUpdate_empty (e : Expense) : applyUpdate e emptyUpdate = e := rfl

/-- Updating the first match with the empty partial update leaves the
collection unchanged. -/
theorem updateFirst_empty (l : List Expense) (id uid : Nat) :
    updateFirst l id uid emptyUpdate = l := by
  induction l with
  | nil => rfl
  | cons e rest ih =>
      unfold updateFirst
      by_cases h : ownedBy id uid e
      · rw [if_pos h, applyUpdate_empty]
      · rw [if_neg h, ih]

/-- C10.  For every expense id owned by the caller, an update request with
an empty body passes validation (every schema field is optional), answers
200, and leaves the stored record — and the whole store — unchanged: the
empty partial update is an identity operation. -/
theorem empty_update_is_identity (db : Db) (caller id : Nat) (e : Expense)
    (h : findOwned db.expenses id caller = some e) :
    putById db caller id emptyUpdate =
      ⟨200, some "Expense updated successfully", [], some e, db⟩ := by
  simp only [putById, if_pos (show updateErrors emptyUpdate = [] by rfl), h,
    applyUpdate_empty, updateFirst_empty]

/-- Witness for C10: user 1 empty-updates their own expense 7; the response
is 200 with the unchanged record and the store is unchanged. -/
theorem empty_update_is_identity_witness :
    putById ownDb 1 7 emptyUpdate =
      ⟨200, some "Expense updated successfully", [],
        some ⟨7, "Lunch", "food", 12, 0, ExpenseType.expense, 1⟩, ownDb⟩ :=
  empty_update_is_identity ownDb 1 7 _ (by decide)

/-! Claim theorems: bulk delete and duplicate. -/

/-- C5.  For every bulk delete request with 1 to 100 ids, the operation
answers 200, deletes exactly the stored expenses whose id is in the list
AND whose `userId` is the caller, and reports `deletedCount` equal to the
number of such records; ids that are absent or owned by another user are
silently ignored (they simply contribute no matching record). -/
theorem bulk_delete_deletes_owned_listed (db : Db) (caller : Nat) (ids : List Nat)
    (hlen : 1 ≤ ids.length ∧ ids.length ≤ 100) :
    (deleteBulk db caller ids).status = 200 ∧
      (deleteBulk db caller ids).deletedCount =
        (db.expenses.filter fun e => decide (e.id ∈ ids ∧ e.userId = caller)).length ∧
      (∀ e, e ∈ (deleteBulk db caller ids).db.expenses ↔
        e ∈ db.expenses ∧ ¬(e.id ∈ ids ∧ e.userId = caller)) := by
  unfold deleteBulk
  rw [if_pos hlen]
  refine ⟨rfl, rfl, fun e => ?_⟩
  simp only [bulkDeleteHit, List.mem_filter, Bool.not_eq_eq_eq_not, Bool.not_true,
    decide_eq_false_iff_not]

/-- Database for the C5 witness: among ids 1 (A), 2 (B), 3 (C), only A
names an expense of caller 1; B belongs to user 2 and C is absent. -/
def bulkDb : Db :=
  ⟨[⟨1, "A", "mine", 10, 0, ExpenseType.expense, 1⟩,
    ⟨2, "B", "theirs", 20, 0, ExpenseType.expense, 2⟩], 4⟩

/-- Witness for C5: deleting ids `[1, 2, 3]` as caller 1 over `bulkDb`
answers 200 and `deletedCount = 1`, and record B survives. -/
theorem bulk_delete_deletes_owned_listed_witness :
    (deleteBulk bulkDb 1 [1, 2, 3]).status = 200 ∧
      (deleteBulk bulkDb 1 [1, 2, 3]).deletedCount = 1 ∧
      (deleteBulk bulkDb 1 [1, 2, 3]).db.expenses =
        [⟨2, "B", "theirs", 20, 0, ExpenseType.expense, 2⟩] := by
  have h := bulk_delete_deletes_owned_listed bulkDb 1 [1, 2, 3] (by decide)
  refine ⟨h.1, ?_, by decide⟩
  rw [h.2.1]
  decide

/-- A `findOne` hit satisfies the owner filter. -/
theorem findOwned_eq (l : List Expense) (id uid : Nat) (e : Expense)
    (h : findOwned l id uid = some e) : e.id = id ∧ e.userId = uid := by
  have := List.find?_some h
  rwa [ownedBy, decide_eq_true_eq] at this

/-- A `findOne` hit is a stored document. -/
theorem findOwned_mem (l : List Expense) (id uid : Nat) (e : Expense)
    (h : findOwned l id uid = some e) : e ∈ l :=
  List.mem_of_find?_eq_some h

/-- C7.  For every duplicate request: when no expense with the given id is
owned by the caller the result is 404; otherwise a record is created whose
title is the original's with `" (Copy)"` appended, whose description,
amount and type are the original's, whose `userId` is the caller, whose
`date` is the duplication time `now` — not the original's date — and whose
id (fresh by the `hfresh` id-generator invariant) differs from every stored
id. -/
theorem duplicate_creates_copy (db : Db) (caller id : Nat) (now : Int)
    (hfresh : ∀ x ∈ db.expenses, x.id < db.nextId) :
    (findOwned db.expenses id caller = none →
        duplicateById db caller id now = ⟨404, some "Expense not found", none, db⟩) ∧
      (∀ e, findOwned db.expenses id caller = some e →
        ∃ d, duplicateById db caller id now =
            ⟨201, some "Expense duplicated successfully", some d,
              ⟨db.expenses ++ [d], db.nextId + 1⟩⟩ ∧
          d.title = e.title ++ " (Copy)" ∧ d.description = e.description ∧
          d.amount = e.amount ∧ d.type = e.type ∧ d.userId = caller ∧ d.date = now ∧
          ∀ x ∈ db.expenses, x.id ≠ d.id) := by
  constructor
  · intro habs
    rw [duplicateById, habs]
  · intro e he
    refine ⟨⟨db.nextId, e.title ++ " (Copy)", e.description, e.amount, now, e.type, caller⟩,
      ?_, rfl, rfl, rfl, rfl, rfl, rfl, fun x hx => Nat.ne_of_lt (hfresh x hx)⟩
    rw [duplicateById, he]

/-- Database for the C7 witness: expense 7, "Rent" with amount 1000 dated 5,
owned by caller 1. -/
def rentDb : Db :=
  ⟨[⟨7, "Rent", "monthly rent", 1000, 5, ExpenseType.income, 1⟩], 8⟩

/-- Witness for C7: duplicating expense 7 of `rentDb` at time 99 answers
201 with a record titled `"Rent (Copy)"`, amount 1000, date 99 (not the
original's 5), owner 1 and an id different from the original's. -/
theorem duplicate_creates_copy_witness :
    (duplicateById rentDb 1 7 99).status = 201 ∧
      ((duplicateById rentDb 1 7 99).expense.map Expense.title) = some "Rent (Copy)" ∧
      ((duplicateById rentDb 1 7 99).expense.map Expense.amount) = some 1000 ∧
      ((duplicateById rentDb 1 7 99).expense.map Expense.date) = some 99 ∧
      ((duplicateById rentDb 1 7 99).expense.map Expense.userId) = some 1 ∧
      ((duplicateById rentDb 1 7 99).expense.map Expense.id) ≠ some 7 := by
  obtain ⟨d, heq, ht, hdesc, ham, hty, hu, hd, hids⟩ :=
    (duplicate_creates_copy rentDb 1 7 99 (by decide)).2
      ⟨7, "Rent", "monthly rent", 1000, 5, ExpenseType.income, 1⟩ (by decide)
  have hid : d.id ≠ 7 :=
    fun h => hids ⟨7, "Rent", "monthly rent", 1000, 5, ExpenseType.income, 1⟩ (by decide) h.symm
  rw [heq]
  refine ⟨rfl, ?_, ?_, ?_, ?_, ?_⟩
  · show some d.title = some "Rent (Copy)"
    rw [ht]
    decide
  · show some d.amount = some (1000 : ℚ)
    rw [ham]
  · show some d.date = some 99
    rw [hd]
  · show some d.userId = some 1
    rw [hu]
  · show ¬some d.id = some 7
    intro h
    injection h with h2
    exact hid h2

/-! Claim theorems: summary statistics. -/

/-- The `?.total || 0` extraction over the aggregation output equals the
plain sum of the amounts of the given type among the matched documents. -/
theorem groupSummary_total (l : List Expense) (t : ExpenseType) :
    (((groupSummary l).find? fun b => decide (b.type = t)).map Breakdown.total).getD 0
      = ((l.filter fun x => decide (x.type = t)).map Expense.amount).sum := by
  cases t with
  | income =>
      by_cases hI : (l.filter fun x => decide (x.type = ExpenseType.income)).length = 0
      · by_cases hE : (l.filter fun x => decide (x.type = ExpenseType.expense)).length = 0
        · simp [groupSummary, groupFor, hI, hE, List.length_eq_zero.mp hI]
        · simp [groupSummary, groupFor, hI, hE, List.length_eq_zero.mp hI]
      · simp [groupSummary, groupFor, hI]
  | expense =>
      by_cases hI : (l.filter fun x => decide (x.type = ExpenseType.income)).length = 0
      · by_cases hE : (l.filter fun x => decide (x.type = ExpenseType.expense)).length = 0
        · simp [groupSummary, groupFor, hI, hE, List.length_eq_zero.mp hE]
        · simp [groupSummary, groupFor, hI, hE]
      · by_cases hE : (l.filter fun x => decide (x.type = ExpenseType.expense)).length = 0
        · simp [groupSummary, groupFor, hI, hE, List.length_eq_zero.mp hE]
        · simp [groupSummary, groupFor, hI, hE]

/-- Every group the aggregation emits carries the sum, count and average of
the matched documents of its type. -/
theorem groupFor_mem_eq (l : List Expense) (t : ExpenseType) (bd : Breakdown)
    (h : bd ∈ groupFor l t) :
    bd = ⟨t, ((l.filter fun x => decide (x.type = t)).map Expense.amount).sum,
      (l.filter fun x => decide (x.type = t)).length,
      ((l.filter fun x => decide (x.type = t)).map Expense.amount).sum /
        ((l.filter fun x => decide (x.type = t)).length : ℚ)⟩ := by
  unfold groupFor at h
  by_cases hl : (l.filter fun x => decide (x.type = t)).length = 0
  · rw [if_pos hl] at h
    cases h
  · rw [if_neg hl] at h
    simpa using h

/-- C6.  For every caller and optional date range, the summary operation
answers 200; each breakdown group carries the sum, count and average of the
caller's matched expenses of its type; `totalIncome` is the sum of the
amounts of type income, `totalExpenses` the sum of the amounts of type
expense, and `balance = totalIncome − totalExpenses`. -/
theorem summary_totals_balance (db : Db) (caller : Nat) (s? e? : Option Int) :
    (statsSummary db caller s? e?).status = 200 ∧
      (statsSummary db caller s? e?).totalIncome =
        (((summaryMatches db caller s? e?).filter fun x =>
          decide (x.type = ExpenseType.income)).map Expense.amount).sum ∧
      (statsSummary db caller s? e?).totalExpenses =
        (((summaryMatches db caller s? e?).filter fun x =>
          decide (x.type = ExpenseType.expense)).map Expense.amount).sum ∧
      (statsSummary db caller s? e?).balance =
        (statsSummary db caller s? e?).totalIncome -
          (statsSummary db caller s? e?).totalExpenses ∧
      (∀ bd ∈ (statsSummary db caller s? e?).breakdown,
        bd.total = (((summaryMatches db caller s? e?).filter fun x =>
            decide (x.type = bd.type)).map Expense.amount).sum ∧
          bd.count = ((summaryMatches db caller s? e?).filter fun x =>
            decide (x.type = bd.type)).length ∧
          bd.average = bd.total / (bd.count : ℚ)) := by
  refine ⟨rfl, groupSummary_total _ _, groupSummary_total _ _, rfl, fun bd hbd => ?_⟩
  have : bd ∈ groupFor (summaryMatches db caller s? e?) ExpenseType.income ∨
      bd ∈ groupFor (summaryMatches db caller s? e?) ExpenseType.expense :=
    List.mem_append.mp hbd
  rcases this with h | h
  · rw [groupFor_mem_eq _ _ _ h]
    exact ⟨rfl, rfl, rfl⟩
  · rw [groupFor_mem_eq _ _ _ h]
    exact ⟨rfl, rfl, rfl⟩

/-- Database for the C6 witness: caller 1 owns an income of 100 and an
expense of 40. -/
def incExpDb : Db :=
  ⟨[⟨1, "salary", "pay", 100, 0, ExpenseType.income, 1⟩,
    ⟨2, "food", "lunch", 40, 0, ExpenseType.expense, 1⟩], 3⟩

/-- Witness for C6: over an income of 100 and an expense of 40 the summary
yields `totalIncome = 100`, `totalExpenses = 40`, `balance = 60`. -/
theorem summary_totals_balance_witness :
    (statsSummary incExpDb 1 none none).totalIncome = 100 ∧
      (statsSummary incExpDb 1 none none).totalExpenses = 40 ∧
      (statsSummary incExpDb 1 none none).balance = 60 := by
  have h := summary_totals_balance incExpDb 1 none none
  have hti : (statsSummary incExpDb 1 none none).totalIncome = 100 := by
    rw [h.2.1]
    simp [incExpDb, summaryMatches, inRange]
  have hte : (statsSummary incExpDb 1 none none).totalExpenses = 40 := by
    rw [h.2.2.1]
    simp [incExpDb, summaryMatches, inRange]
  refine ⟨hti, hte, ?_⟩
  rw [h.2.2.2.1, hti, hte]
  norm_num

/-- C9.  For every caller with no expense matching the (optional) date-range
filter, the summary operation still succeeds: status 200, `totalIncome = 0`,
`totalExpenses = 0`, `balance = 0` and an empty breakdown list. -/
theorem summary_empty_zeroes (db : Db) (caller : Nat) (s? e? : Option Int)
    (h : summaryMatches db caller s? e? = []) :
    statsSummary db caller s? e? = ⟨200, 0, 0, 0, []⟩ := by
  simp [statsSummary, h, groupSummary, groupFor]

/-- Witness for C9: in `otherOwnerDb` every expense belongs to user 2, so
caller 1's summary is the all-zero one. -/
theorem summary_empty_zeroes_witness :
    statsSummary otherOwnerDb 1 none none = ⟨200, 0, 0, 0, []⟩ :=
  summary_empty_zeroes otherOwnerDb 1 none none (by decide)

/-! Claim theorems: top-N query. -/

/-- C8 counterexample: the zod limit schema is
`z.coerce.number().positive().max(50)` — positive, NOT at-least-one — so the
query `limit = 1/2`, a value outside the range 1..50, is accepted (status
200), not rejected with 400. -/
theorem top_limit_below_one_not_rejected :
    mkRat 1 2 < 1 ∧ (getTop ⟨[], 0⟩ 1 (some (mkRat 1 2)) none).status ≠ 400 := by
  decide

/-- Every document considered by `GET /expense/top` belongs to the caller
and matches the optional type filter. -/
theorem topMatches_mem (db : Db) (uid : Nat) (t? : Option ExpenseType) (x : Expense)
    (hx : x ∈ topMatches db uid t?) :
    x.userId = uid ∧ ∀ t, t? = some t → x.type = t := by
  unfold topMatches at hx
  obtain ⟨-, hpred⟩ := List.mem_filter.mp hx
  rw [Bool.and_eq_true] at hpred
  obtain ⟨h1, h2⟩ := hpred
  refine ⟨of_decide_eq_true h1, fun t ht => ?_⟩
  subst ht
  simpa using h2

/-- C8, amended.  The `limit` query parameter defaults to 10 when absent and
a present value is accepted exactly when it is positive and at most 50 (so
fractional values below 1 are also accepted — the schema does not enforce
the lower bound 1 nor integrality); for an integer limit n in 1..50 the
answer is 200 and lists min n of the caller's (type-filtered) expenses,
sorted by amount descending, and every listed amount is at least every
left-out matching amount. -/
theorem top_bounded_sorted (db : Db) (caller : Nat) (t? : Option ExpenseType) (q : ℚ)
    (n : ℕ) (hn1 : 1 ≤ n) (hn50 : n ≤ 50) :
    getTop db caller none t? = getTop db caller (some 10) t? ∧
      ((getTop db caller (some q) t?).status = 400 ↔ ¬(0 < q ∧ q ≤ 50)) ∧
      (getTop db caller (some (n : ℚ)) t?).status = 200 ∧
      (getTop db caller (some (n : ℚ)) t?).expenses.Sorted amtGe ∧
      (getTop db caller (some (n : ℚ)) t?).expenses.length
        = min n (topMatches db caller t?).length ∧
      (∀ x ∈ (getTop db caller (some (n : ℚ)) t?).expenses,
        x.userId = caller ∧ ∀ t, t? = some t → x.type = t) ∧
      ∃ rest, (topMatches db caller t?).Perm
          ((getTop db caller (some (n : ℚ)) t?).expenses ++ rest) ∧
        ∀ x ∈ (getTop db caller (some (n : ℚ)) t?).expenses, ∀ y ∈ rest,
          y.amount ≤ x.amount := by
  have hq : (0 : ℚ) < (n : ℚ) ∧ (n : ℚ) ≤ 50 := by
    constructor
    · exact_mod_cast Nat.lt_of_lt_of_le Nat.zero_lt_one hn1
    · exact_mod_cast hn50
  have hfl : (⌊((n : ℕ) : ℚ)⌋).toNat = n := by
    rw [Int.floor_natCast]
    exact Int.toNat_natCast n
  have hexp : (getTop db caller (some (n : ℚ)) t?).expenses
      = (sortByAmountDesc (topMatches db caller t?)).take n := by
    simp [getTop, hq, hfl]
  have hsorted : (sortByAmountDesc (topMatches db caller t?)).Sorted amtGe :=
    List.sorted_insertionSort amtGe (topMatches db caller t?)
  have hperm : (topMatches db caller t?).Perm (sortByAmountDesc (topMatches db caller t?)) :=
    (List.perm_insertionSort amtGe (topMatches db caller t?)).symm
  refine ⟨rfl, ?_, ?_, ?_, ?_, ?_, ?_⟩
  · by_cases h : 0 < q ∧ q ≤ 50
    · simp [getTop, h]
    · simp [getTop, h]
  · simp [getTop, hq]
  · rw [hexp]
    exact hsorted.sublist (List.take_sublist n _)
  · rw [hexp, List.length_take, hperm.length_eq]
  · intro x hx
    rw [hexp] at hx
    exact topMatches_mem db caller t? x
      (hperm.mem_iff.mpr (List.mem_of_mem_take hx))
  · refine ⟨(sortByAmountDesc (topMatches db caller t?)).drop n, ?_, ?_⟩
    · rw [hexp, List.take_append_drop]
      exact hperm
    · rw [hexp]
      have hs := hsorted
      rw [← List.take_append_drop n (sortByAmountDesc (topMatches db caller t?))] at hs
      exact fun x hx y hy => (List.pairwise_append.mp hs).2.2 x hx y hy

/-- Database for the C8 witness: caller 1 owns expenses of amounts 5, 50
and 500, all of the same type. -/
def topDb : Db :=
  ⟨[⟨1, "a", "small", 5, 0, ExpenseType.expense, 1⟩,
    ⟨2, "b", "mid", 50, 0, ExpenseType.expense, 1⟩,
    ⟨3, "c", "big", 500, 0, ExpenseType.expense, 1⟩], 4⟩

/-- Witness for the amended C8: `limit = 2` over owned amounts
`[5, 50, 500]` answers 200 with exactly the two largest, `[500, 50]`. -/
theorem top_bounded_sorted_witness :
    ((1 : ℕ) ≤ 2 ∧ (2 : ℕ) ≤ 50) ∧
      (getTop topDb 1 (some ((2 : ℕ) : ℚ)) none).status = 200 ∧
      (getTop topDb 1 (some ((2 : ℕ) : ℚ)) none).expenses.map Expense.amount = [500, 50] := by
  have h := top_bounded_sorted topDb 1 none 1 2 (by decide) (by decide)
  refine ⟨⟨by decide, by decide⟩, h.2.2.1, ?_⟩
  have hc : ((2 : ℕ) : ℚ) = (2 : ℚ) := by norm_num
  rw [hc]
  decide

end ExpenseTracker







